import Mathlib

/-!
Verification of the DataStory AI Python analysis service.

Shallow embedding of the services under `python-service/` (preprocessor,
analyzer, visualizer) and of the JSON serialization helper in `main.py`.
Floating-point arithmetic of the source is modelled with exact rationals;
library calls whose numeric output is opaque (scipy p-values, sklearn
fitted coefficients, pandas interpolated quantiles) are abstracted as
explicit parameters of the embedded functions.
-/

namespace DataStory

/-! ## Preprocessor: column type detection (`services/preprocessor.py`) -/

/-- Storage dtype of a pandas column, as discriminated by the source:
`pd.api.types.is_numeric_dtype`, `is_datetime64_any_dtype`, `is_object_dtype`. -/
inductive DType where
  | numeric
  | datetime64
  | object
  | other
deriving DecidableEq, Repr

/-- Abstraction of one pandas Series as consumed by
`DataPreprocessor.detect_column_types`: its length, the number of non-null
entries, the number of distinct non-null values (`Series.nunique()`), the
storage dtype, and whether `pd.to_datetime` succeeds on the first 100
non-null entries (the sampling probe of `_is_datetime`). -/
structure Column where
  size : Nat
  nonNullCount : Nat
  nunique : Nat
  dtype : DType
  parsesAsDatetimeSample : Bool
deriving DecidableEq, Repr

/-- `DataPreprocessor._is_datetime`: datetime64 dtype is accepted outright,
numeric dtype is rejected, anything else is decided by the parse probe. -/
def isDatetimeCol (c : Column) : Bool :=
  if c.dtype = .datetime64 then true
  else if c.dtype = .numeric then false
  else c.parsesAsDatetimeSample

/-- `DataPreprocessor._is_categorical` with its default threshold 0.05:
object dtype whose distinct-value fraction is below 1/20 or which has at
most 20 distinct values. -/
def isCategoricalCol (c : Column) : Bool :=
  if c.dtype = .object then
    decide ((c.nunique : ℚ) / (c.size : ℚ) < 1 / 20) || decide (c.nunique ≤ 20)
  else false

/-- Semantic type assigned by `detect_column_types`. -/
inductive ColType where
  | numeric
  | categorical
  | datetime
  | text
deriving DecidableEq, Repr

/-- Per-column body of `DataPreprocessor.detect_column_types`. -/
def detectColumnType (c : Column) : ColType :=
  if c.nonNullCount = 0 then .text
  else if isDatetimeCol c then .datetime
  else if c.dtype = .numeric then .numeric
  else if isCategoricalCol c then .categorical
  else .text

/-- The column-type rule as the specification words it: first-match
precedence over (1) all null, (2) parseable as timestamp and not of numeric
storage type, (3) numeric storage, (4) string-typed with unique fraction
below 5% or at most 20 distinct values, (5) text.  A datetime64-typed
column counts as parseable outright. -/
def specColumnType (c : Column) : ColType :=
  if c.nonNullCount = 0 then .text
  else if (c.dtype = .datetime64 ∨ c.parsesAsDatetimeSample) ∧ c.dtype ≠ .numeric then .datetime
  else if c.dtype = .numeric then .numeric
  else if c.dtype = .object ∧ ((c.nunique : ℚ) / (c.size : ℚ) < 1 / 20 ∨ c.nunique ≤ 20) then .categorical
  else .text

/-! ## Preprocessor: validation (`DataPreprocessor.validate_data`) -/

/-- Which minimum-size requirement failed. -/
inductive DimKind where
  | columns
  | rows
deriving DecidableEq, Repr

/-- Payload of the validation error: the deficient dimension together with
the observed and required counts (the two numbers interpolated into the
`ValueError` message of the source). -/
structure ValidationErr where
  dim : DimKind
  observed : Nat
  required : Nat
deriving DecidableEq, Repr

/-- `DataPreprocessor.validate_data`: the column check runs first, then the
row check; passing both raises nothing. -/
def validateData (minColumns minRows cols rows : Nat) : Except ValidationErr Unit :=
  if cols < minColumns then .error ⟨.columns, cols, minColumns⟩
  else if rows < minRows then .error ⟨.rows, rows, minRows⟩
  else .ok ()

/-! ## Analyzer: trend direction (`TrendDetector.detect_trends`) -/

/-- Reported trend direction. -/
inductive TrendDirection where
  | increasing
  | decreasing
  | stable
deriving DecidableEq, Repr

/-- Mean of a list of rationals (`np.mean`); the empty list yields 0 via
rational division by zero (the source never takes the mean of an empty
series on the analyzed paths). -/
def listMean (y : List ℚ) : ℚ := y.sum / (y.length : ℚ)

/-- Population variance (square of `np.std`). -/
def pvariance (y : List ℚ) : ℚ :=
  ((y.map fun v => (v - listMean y) ^ 2).sum) / (y.length : ℚ)

/-- Ordinary-least-squares slope of `y` against `x`
(`LinearRegression().fit(X, y).coef_[0]` for a single feature). -/
def olsSlope (x y : List ℚ) : ℚ :=
  let n : ℚ := (x.length : ℚ)
  let sx := x.sum
  let sy := y.sum
  let sxy := (List.zipWith (· * ·) x y).sum
  let sxx := (x.map fun v => v ^ 2).sum
  (n * sxy - sx * sy) / (n * sxx - sx ^ 2)

/-- Lines 84-91 of `analyzer.py`: direction classification from the fitted
slope and `np.std(y)`. -/
def classifyDirection (slope ystd : ℚ) : TrendDirection :=
  if ystd = 0 ∨ |slope| < (1 / 100) * max ystd 1 then .stable
  else if 0 < slope then .increasing
  else .decreasing

/-- Direction reported by `detect_trends` for a series `y` over time axis
`x`; `ystd` stands for `np.std(y)`, which the wrapping theorem constrains
by `ystd ^ 2 = pvariance y` since square roots leave ℚ. -/
def detectDirection (x y : List ℚ) (ystd : ℚ) : TrendDirection :=
  classifyDirection (olsSlope x y) ystd

/-! ## Analyzer: correlations (`CorrelationCalculator.calculate_correlations`)

The scipy statistics entering each pair (coefficients and two-sided
p-values) are opaque numerics; they are abstracted as fields of
`PairStats`, one record per unordered pair of distinct numeric columns. -/

/-- Statistics of one unordered column pair: the number of rows where both
values are non-null (`len(valid_data)`), the Pearson and Spearman
coefficients and their p-values. -/
structure PairStats where
  col1 : String
  col2 : String
  nValid : Nat
  pearsonCoef : ℚ
  pearsonP : ℚ
  spearmanCoef : ℚ
  spearmanP : ℚ
deriving DecidableEq, Repr

/-- The strength label of the retained coefficient. -/
inductive SigLabel where
  | strong
  | moderate
  | weak
deriving DecidableEq, Repr

/-- Strength labelling of `calculate_correlations`. -/
def sigLabelOf (coef : ℚ) : SigLabel :=
  if 7 / 10 < |coef| then .strong
  else if 1 / 2 < |coef| then .moderate
  else .weak

/-- One emitted correlation record. -/
structure CorrRecord where
  column1 : String
  column2 : String
  coefficient : ℚ
  pValue : ℚ
  usedPearson : Bool
  sigLabel : SigLabel
  positive : Bool
deriving DecidableEq, Repr

/-- Loop body of `calculate_correlations` for one pair: skip pairs with
fewer than 3 valid rows; skip if both coefficients are below the magnitude
threshold; prefer Pearson when its p-value beats the significance level,
else Spearman; keep the pair only when the preferred p-value beats the
significance level. -/
def emitCorrelation (threshold sigLevel : ℚ) (p : PairStats) : Option CorrRecord :=
  if p.nValid < 3 then none
  else if |p.pearsonCoef| < threshold ∧ |p.spearmanCoef| < threshold then none
  else
    let usePearson : Bool := decide (p.pearsonP < sigLevel)
    let primaryCoef := if usePearson then p.pearsonCoef else p.spearmanCoef
    let primaryP := if usePearson then p.pearsonP else p.spearmanP
    if primaryP < sigLevel then
      some ⟨p.col1, p.col2, primaryCoef, primaryP, usePearson,
        sigLabelOf primaryCoef, decide (0 < primaryCoef)⟩
    else none

/-- `calculate_correlations`: emit records pairwise, then sort descending
by absolute retained coefficient (`correlations.sort(key=abs, reverse)`). -/
def calculateCorrelations (threshold sigLevel : ℚ) (pairs : List PairStats) :
    List CorrRecord :=
  (pairs.filterMap (emitCorrelation threshold sigLevel)).mergeSort
    fun a b => decide (|b.coefficient| ≤ |a.coefficient|)

/-! ## Analyzer: insight ranking (`InsightGenerator`) -/

/-- The two ranking inputs of one extracted insight: its significance and
its impact label (always one of high/medium/low in the extractors, but
`_rank_insights` also has defaults for anything else). -/
structure Insight where
  significance : ℚ
  impact : String
deriving DecidableEq, Repr

/-- The `impact_weights` table with the `.get(impact, 0.5)` fallback. -/
def impactWeight (impact : String) : ℚ :=
  if impact = "high" then 1
  else if impact = "medium" then 7 / 10
  else if impact = "low" then 2 / 5
  else 1 / 2

/-- An insight carrying the composite score attached by `_rank_insights`. -/
structure ScoredInsight where
  significance : ℚ
  impact : String
  score : ℚ
deriving DecidableEq, Repr

/-- Score computation of `_rank_insights`: 70% significance, 30% impact. -/
def scoreInsight (i : Insight) : ScoredInsight :=
  ⟨i.significance, i.impact, (7 / 10) * i.significance + (3 / 10) * impactWeight i.impact⟩

/-- `InsightGenerator._rank_insights`: attach scores, sort descending. -/
def rankInsights (insights : List Insight) : List ScoredInsight :=
  (insights.map scoreInsight).mergeSort fun a b => decide (b.score ≤ a.score)

/-- `InsightGenerator.generate_insights`, abstracted over the concatenated
extractor outputs: rank and return the top 5. -/
def generateInsights (extracted : List Insight) : List ScoredInsight :=
  (rankInsights extracted).take 5

/-! ## Analyzer: outlier detection (`OutlierDetector`)

The z-score method compares `|value - mean| / std` against 3.0 where
`std = data.std()` is the sample standard deviation.  Since square roots
leave ℚ, the embedded filter uses the equivalent squared comparison
`threshold^2 * var < (value - mean)^2`, and the wrapping theorem restates
it in the source's divided form for any rational square root of the
variance.  Pandas quantiles interpolate, so `q1`/`q3` are abstracted as
parameters of the IQR method. -/

/-- Sample variance (square of `pandas.Series.std`, `ddof=1`); callers
guarantee at least 4 values, so the ℚ-division-by-zero convention for
shorter lists is never exercised. -/
def sampleVar (data : List ℚ) : ℚ :=
  ((data.map fun v => (v - listMean data) ^ 2).sum) / ((data.length - 1 : ℕ) : ℚ)

/-- Result record of `_detect_outliers_zscore` (z-scores stored squared). -/
structure ZscoreResult where
  count : Nat
  percentOut : ℚ
  indices : List Nat
  values : List ℚ
  zscoresSq : List ℚ
deriving DecidableEq, Repr

/-- The entries flagged by the z-score mask, with their positions. -/
def zscoreFlagged (data : List ℚ) (threshold : ℚ) : List (Nat × ℚ) :=
  data.enum.filter fun p =>
    decide (threshold ^ 2 * sampleVar data < (p.2 - listMean data) ^ 2)

/-- `_detect_outliers_zscore`: a zero standard deviation short-circuits to
an empty report; otherwise the flagged entries are counted in full and the
index/value/z-score lists are truncated to the first 20. -/
def detectOutliersZscore (data : List ℚ) (threshold : ℚ) : ZscoreResult :=
  if sampleVar data = 0 then ⟨0, 0, [], [], []⟩
  else
    ⟨(zscoreFlagged data threshold).length,
     ((zscoreFlagged data threshold).length : ℚ) / (data.length : ℚ) * 100,
     ((zscoreFlagged data threshold).map Prod.fst).take 20,
     ((zscoreFlagged data threshold).map Prod.snd).take 20,
     ((zscoreFlagged data threshold).map fun p =>
        (p.2 - listMean data) ^ 2 / sampleVar data).take 20⟩

/-- Result record of `_detect_outliers_iqr`. -/
structure IqrResult where
  count : Nat
  percentOut : ℚ
  lowerBound : ℚ
  upperBound : ℚ
  indices : List Nat
  values : List ℚ
deriving DecidableEq, Repr

/-- The entries flagged by the IQR mask: below `q1 - 1.5*iqr` or above
`q3 + 1.5*iqr`. -/
def iqrFlagged (data : List ℚ) (q1 q3 : ℚ) : List (Nat × ℚ) :=
  data.enum.filter fun p =>
    decide (p.2 < q1 - 3 / 2 * (q3 - q1)) || decide (q3 + 3 / 2 * (q3 - q1) < p.2)

/-- `_detect_outliers_iqr`: full count and percentage, index and value
lists truncated to the first 20. -/
def detectOutliersIqr (data : List ℚ) (q1 q3 : ℚ) : IqrResult :=
  ⟨(iqrFlagged data q1 q3).length,
   ((iqrFlagged data q1 q3).length : ℚ) / (data.length : ℚ) * 100,
   q1 - 3 / 2 * (q3 - q1), q3 + 3 / 2 * (q3 - q1),
   ((iqrFlagged data q1 q3).map Prod.fst).take 20,
   ((iqrFlagged data q1 q3).map Prod.snd).take 20⟩

/-- The set of indices flagged by at least two methods, built (as in
`_get_consensus_outliers`) from the already-truncated index lists of the
per-method records. -/
def consensusSet (iqrIdx zscoreIdx : List Nat) (isoIdx : Option (List Nat)) :
    Finset Nat :=
  match isoIdx with
  | some iso =>
    (iqrIdx.toFinset ∩ zscoreIdx.toFinset) ∪ (iqrIdx.toFinset ∩ iso.toFinset) ∪
      (zscoreIdx.toFinset ∩ iso.toFinset)
  | none => iqrIdx.toFinset ∩ zscoreIdx.toFinset

/-- Result record of `_get_consensus_outliers`. -/
structure ConsensusResult where
  count : Nat
  percentOut : ℚ
  indices : List Nat
deriving DecidableEq, Repr

/-- `_get_consensus_outliers`: count of the consensus set, percentage over
`max(len(iqr indices) + len(zscore indices), 1)`, and at most 20 indices
(Python set order is arbitrary; the embedding lists them sorted). -/
def getConsensusOutliers (iqrIdx zscoreIdx : List Nat) (isoIdx : Option (List Nat)) :
    ConsensusResult :=
  ⟨(consensusSet iqrIdx zscoreIdx isoIdx).card,
   ((consensusSet iqrIdx zscoreIdx isoIdx).card : ℚ) /
     ((max (iqrIdx.length + zscoreIdx.length) 1 : ℕ) : ℚ) * 100,
   ((consensusSet iqrIdx zscoreIdx isoIdx).sort (· ≤ ·)).take 20⟩

/-! ## Visualizer: chart selection (`VisualizationSelector._select_diverse_charts`) -/

/-- A scored chart candidate as seen by `_select_diverse_charts`: its chart
type, a distinguishing payload (title), and the composite score. -/
structure Chart where
  ctype : String
  title : String
  score : ℚ
deriving DecidableEq, Repr

/-- `type_counts.get(t, 0)`: the number of already-selected charts of type
`t` (the source increments the counter exactly when it appends). -/
def countType (sel : List Chart) (t : String) : Nat :=
  (sel.filter fun c => decide (c.ctype = t)).length

/-- First pass of `_select_diverse_charts`: walk the scored charts and pick
the first chart of each remaining priority type (each picked type is
removed from the priority list and recorded in the type counts). -/
def firstPassSelect : List Chart → List String → List Chart → List Chart
  | [], _, sel => sel
  | c :: cs, prio, sel =>
    if c.ctype ∈ prio ∧ countType sel c.ctype = 0 then
      firstPassSelect cs (prio.erase c.ctype) (sel ++ [c])
    else firstPassSelect cs prio sel

/-- Second pass of `_select_diverse_charts`: walk the scored charts again,
skipping charts already selected and types already used twice, appending
the rest and breaking once the configured maximum is reached (the break
test runs after the append, as in the source). -/
def secondPassSelect (maxCharts : Nat) : List Chart → List Chart → List Chart
  | [], sel => sel
  | c :: cs, sel =>
    if c ∈ sel then secondPassSelect maxCharts cs sel
    else if 2 ≤ countType sel c.ctype then secondPassSelect maxCharts cs sel
    else if maxCharts ≤ (sel ++ [c]).length then sel ++ [c]
    else secondPassSelect maxCharts cs (sel ++ [c])

/-- `_select_diverse_charts`: priority pass, filling pass, final sort by
composite score descending, truncation to the configured maximum. -/
def selectDiverseCharts (maxCharts : Nat) (scoredCharts : List Chart) : List Chart :=
  let sel1 := firstPassSelect scoredCharts ["heatmap", "combination", "boxplot"] []
  let sel2 := secondPassSelect maxCharts scoredCharts sel1
  (sel2.mergeSort fun a b => decide (b.score ≤ a.score)).take maxCharts

/-! ## Serialization (`main.py::convert_numpy_types`)

The result bundle is a tree of Python values.  A Python float is either an
exact value (modelled as ℚ) or one of the IEEE non-finite values, which
`float()`, `int()` and `ndarray.tolist()` all preserve.  The ndarrays that
reach the converter in the result bundle hold numeric dtypes, so their
`tolist()` yields nested plain lists of native scalars. -/

/-- A Python/numpy floating-point value. -/
inductive PyFloat where
  | finite (q : ℚ)
  | nan
  | posInf
  | negInf
deriving DecidableEq, Repr

/-- Contents of a numeric-dtype ndarray: scalars or nested rows. -/
inductive NpArrayData where
  | intScalar (n : Int)
  | floatScalar (x : PyFloat)
  | boolScalar (b : Bool)
  | arr (elems : List NpArrayData)

/-- A Python value as it occurs in the AnalysisResult bundle and ChartSpec
list: numpy scalar wrappers, numeric ndarrays, native scalars, strings,
None, and the dict/list/tuple containers handled by the converter. -/
inductive PyVal where
  | npInt (n : Int)
  | npFloat (x : PyFloat)
  | npBool (b : Bool)
  | npArray (elems : List NpArrayData)
  | pyInt (n : Int)
  | pyFloat (x : PyFloat)
  | pyBool (b : Bool)
  | pyStr (s : String)
  | pyNone
  | pyDict (entries : List (String × PyVal))
  | pyList (elems : List PyVal)
  | pyTuple (elems : List PyVal)

mutual

/-- `ndarray.tolist()` on a numeric-dtype array: every numpy scalar
becomes the corresponding native scalar, rows become plain lists. -/
def npScalarToNative : NpArrayData → PyVal
  | .intScalar n => .pyInt n
  | .floatScalar x => .pyFloat x
  | .boolScalar b => .pyBool b
  | .arr elems => .pyList (npManyToNative elems)

/-- Elementwise `tolist()` over one array dimension. -/
def npManyToNative : List NpArrayData → List PyVal
  | [] => []
  | e :: es => npScalarToNative e :: npManyToNative es

end

mutual

/-- `main.convert_numpy_types`: numpy integer/floating/bool scalars become
native `int`/`float`/`bool`, ndarrays become `tolist()` results, dicts,
lists and tuples are converted recursively, anything else passes through. -/
def convertNumpyTypes : PyVal → PyVal
  | .npInt n => .pyInt n
  | .npFloat x => .pyFloat x
  | .npBool b => .pyBool b
  | .npArray elems => .pyList (npManyToNative elems)
  | .pyDict entries => .pyDict (convertEntries entries)
  | .pyList elems => .pyList (convertMany elems)
  | .pyTuple elems => .pyTuple (convertMany elems)
  | .pyInt n => .pyInt n
  | .pyFloat x => .pyFloat x
  | .pyBool b => .pyBool b
  | .pyStr s => .pyStr s
  | .pyNone => .pyNone

/-- Elementwise conversion of list/tuple members. -/
def convertMany : List PyVal → List PyVal
  | [] => []
  | v :: vs => convertNumpyTypes v :: convertMany vs

/-- Conversion of dict values (keys pass through untouched). -/
def convertEntries : List (String × PyVal) → List (String × PyVal)
  | [] => []
  | (k, v) :: es => (k, convertNumpyTypes v) :: convertEntries es

end

mutual

/-- No numpy wrapper type occurs anywhere in the value. -/
def noNumpy : PyVal → Bool
  | .npInt _ => false
  | .npFloat _ => false
  | .npBool _ => false
  | .npArray _ => false
  | .pyDict entries => noNumpyEntries entries
  | .pyList elems => noNumpyMany elems
  | .pyTuple elems => noNumpyMany elems
  | .pyInt _ => true
  | .pyFloat _ => true
  | .pyBool _ => true
  | .pyStr _ => true
  | .pyNone => true

/-- `noNumpy` over list/tuple members. -/
def noNumpyMany : List PyVal → Bool
  | [] => true
  | v :: vs => noNumpy v && noNumpyMany vs

/-- `noNumpy` over dict values. -/
def noNumpyEntries : List (String × PyVal) → Bool
  | [] => true
  | (_, v) :: es => noNumpy v && noNumpyEntries es

end

/-- A floating-point value is finite. -/
def pyFloatFinite : PyFloat → Bool
  | .finite _ => true
  | .nan => false
  | .posInf => false
  | .negInf => false

mutual

/-- Every float inside a numeric ndarray is finite. -/
def npDataFinite : NpArrayData → Bool
  | .intScalar _ => true
  | .floatScalar x => pyFloatFinite x
  | .boolScalar _ => true
  | .arr elems => npManyFinite elems

/-- `npDataFinite` over one array dimension. -/
def npManyFinite : List NpArrayData → Bool
  | [] => true
  | e :: es => npDataFinite e && npManyFinite es

end

mutual

/-- Every numeric leaf of the value is finite. -/
def allFinite : PyVal → Bool
  | .npInt _ => true
  | .npFloat x => pyFloatFinite x
  | .npBool _ => true
  | .npArray elems => npManyFinite elems
  | .pyDict entries => allFiniteEntries entries
  | .pyList elems => allFiniteMany elems
  | .pyTuple elems => allFiniteMany elems
  | .pyInt _ => true
  | .pyFloat x => pyFloatFinite x
  | .pyBool _ => true
  | .pyStr _ => true
  | .pyNone => true

/-- `allFinite` over list/tuple members. -/
def allFiniteMany : List PyVal → Bool
  | [] => true
  | v :: vs => allFinite v && allFiniteMany vs

/-- `allFinite` over dict values. -/
def allFiniteEntries : List (String × PyVal) → Bool
  | [] => true
  | (_, v) :: es => allFinite v && allFiniteEntries es

end

end DataStory

namespace DataStory

/-- A constant list has population variance 0. -/
theorem pvariance_replicate (n : Nat) (c : ℚ) : pvariance (List.replicate n c) = 0 := by
  rcases Nat.eq_zero_or_pos n with h0 | hpos
  · subst h0
    simp [pvariance, listMean]
  · have hne : ((n : ℚ)) ≠ 0 := Nat.cast_ne_zero.mpr (Nat.pos_iff_ne_zero.mp hpos)
    have hmean : listMean (List.replicate n c) = c := by
      simp only [listMean, List.sum_replicate, List.length_replicate, nsmul_eq_mul]
      field_simp
    simp [pvariance, hmean, List.map_replicate, List.sum_replicate]

/-- If a series is constant then any nonnegative square root of its
population variance is 0 (this is `np.std` of a constant series). -/
theorem ystd_zero_of_replicate (y : List ℚ) (ystd : ℚ)
    (hstd : ystd ^ 2 = pvariance y) (c : ℚ) (hy : y = List.replicate y.length c) :
    ystd = 0 := by
  have hvar : pvariance y = 0 := by
    conv_lhs => rw [hy]
    exact pvariance_replicate _ _
  have h2 : ystd ^ 2 = 0 := by rw [hstd, hvar]
  have hne : (2 : ℕ) ≠ 0 := by norm_num
  exact (pow_eq_zero_iff hne).mp h2

/-- C1: type inference assigns each column exactly one semantic type by the
spec's first-match precedence: all-null gets text; otherwise timestamp-parseable
non-numeric gets datetime; otherwise numeric storage gets numeric; otherwise
string-typed with unique fraction below 5% or at most 20 distinct values gets
categorical; otherwise text. -/
theorem detect_column_types_first_match (c : Column) :
    detectColumnType c = specColumnType c := by
  unfold detectColumnType specColumnType isDatetimeCol isCategoricalCol
  rcases c with ⟨size, nonNull, nuniq, dtype, parses⟩
  cases dtype <;> cases parses <;> simp

/-- C2: for a series analyzed by the trend detector, the direction is stable
iff the standard deviation is 0 or the OLS slope is below 1% of
max(std, 1) in absolute value; otherwise increasing iff the slope is
positive and decreasing iff it is negative; a constant series is stable. -/
theorem trend_direction_classification (x y : List ℚ) (ystd : ℚ)
    (hstd : ystd ^ 2 = pvariance y) (_hnn : 0 ≤ ystd) :
    (detectDirection x y ystd = .stable ↔
      ystd = 0 ∨ |olsSlope x y| < (1 / 100) * max ystd 1) ∧
    (detectDirection x y ystd = .increasing ↔
      ¬(ystd = 0 ∨ |olsSlope x y| < (1 / 100) * max ystd 1) ∧ 0 < olsSlope x y) ∧
    (detectDirection x y ystd = .decreasing ↔
      ¬(ystd = 0 ∨ |olsSlope x y| < (1 / 100) * max ystd 1) ∧ olsSlope x y < 0) ∧
    (∀ c : ℚ, y = List.replicate y.length c → detectDirection x y ystd = .stable) := by
  have hmax : (0 : ℚ) < (1 / 100) * max ystd 1 := by
    have h1 : (1 : ℚ) ≤ max ystd 1 := le_max_right _ _
    nlinarith
  unfold detectDirection classifyDirection
  by_cases hp : ystd = 0 ∨ |olsSlope x y| < (1 / 100) * max ystd 1
  · rw [if_pos hp]
    exact ⟨Iff.intro (fun _ => hp) (fun _ => rfl),
      iff_of_false (by simp) (fun h => h.1 hp),
      iff_of_false (by simp) (fun h => h.1 hp),
      fun c _ => rfl⟩
  · have hslope0 : olsSlope x y ≠ 0 := by
      intro h
      exact hp (Or.inr (by rw [h, abs_zero]; exact hmax))
    rw [if_neg hp]
    by_cases hpos : 0 < olsSlope x y
    · rw [if_pos hpos]
      exact ⟨iff_of_false (by simp) hp,
        iff_of_true rfl ⟨hp, hpos⟩,
        iff_of_false (by simp) (fun h => absurd h.2 (lt_asymm hpos)),
        fun c hy => absurd (Or.inl (ystd_zero_of_replicate y ystd hstd c hy)) hp⟩
    · have hneg : olsSlope x y < 0 := lt_of_le_of_ne (not_lt.mp hpos) hslope0
      rw [if_neg hpos]
      exact ⟨iff_of_false (by simp) hp,
        iff_of_false (by simp) (fun h => absurd h.2 (lt_asymm hneg)),
        iff_of_true rfl ⟨hp, hneg⟩,
        fun c hy => absurd (Or.inl (ystd_zero_of_replicate y ystd hstd c hy)) hp⟩

/-- Witness for C2: the constant series 5,5,5 has standard deviation 0 and
is classified stable. -/
theorem trend_direction_classification_witness :
    detectDirection [0, 1, 2] [5, 5, 5] 0 = .stable :=
  (trend_direction_classification [0, 1, 2] [5, 5, 5] 0
      (by norm_num [pvariance, listMean]) le_rfl).2.2.2 5 rfl

/-- C6: preprocessing validation fails with an error naming the deficient
dimension and the observed/required counts exactly when the table has fewer
than the configured minimum of columns or of rows, and passes when both
minimums are met. -/
theorem validate_data_spec (minColumns minRows cols rows : Nat) :
    (cols < minColumns ∨ rows < minRows →
      ∃ e : ValidationErr, validateData minColumns minRows cols rows = .error e ∧
        e.observed < e.required ∧
        ((e.dim = .columns ∧ e.observed = cols ∧ e.required = minColumns) ∨
         (e.dim = .rows ∧ e.observed = rows ∧ e.required = minRows))) ∧
    (minColumns ≤ cols → minRows ≤ rows →
      validateData minColumns minRows cols rows = .ok ()) := by
  constructor
  · intro hdef
    unfold validateData
    by_cases hc : cols < minColumns
    · exact ⟨⟨.columns, cols, minColumns⟩, by rw [if_pos hc], hc, Or.inl ⟨rfl, rfl, rfl⟩⟩
    · have hr : rows < minRows := hdef.resolve_left hc
      exact ⟨⟨.rows, rows, minRows⟩, by rw [if_neg hc, if_pos hr], hr, Or.inr ⟨rfl, rfl, rfl⟩⟩
  · intro hc hr
    unfold validateData
    rw [if_neg (not_lt.mpr hc), if_neg (not_lt.mpr hr)]

/-- Sorting with `mergeSort` on the boolean reflection of a descending
rational key yields a pairwise-descending list. -/
theorem pairwise_mergeSort_desc {α : Type} (key : α → ℚ) (l : List α) :
    List.Pairwise (fun a b => key b ≤ key a)
      (l.mergeSort fun a b => decide (key b ≤ key a)) := by
  have h := @List.sorted_mergeSort α (fun a b => decide (key b ≤ key a))
    (fun a b c hab hbc => decide_eq_true
      (le_trans (of_decide_eq_true hbc) (of_decide_eq_true hab)))
    (fun a b => by
      rcases le_total (key b) (key a) with h | h <;> simp [h]) l
  exact h.imp fun hab => of_decide_eq_true hab

/-- C3: a pair with at least 3 valid rows is emitted iff one of the two
coefficients reaches the magnitude threshold in absolute value and the
preferred coefficient (Pearson if its p-value is below 0.05, else
Spearman) has p-value below 0.05; the output records are exactly the
emitted ones and are sorted descending by absolute retained coefficient. -/
theorem correlation_emission_spec (threshold : ℚ) (pairs : List PairStats) :
    List.Pairwise (fun a b => |b.coefficient| ≤ |a.coefficient|)
      (calculateCorrelations threshold (1 / 20) pairs) ∧
    (∀ r : CorrRecord, r ∈ calculateCorrelations threshold (1 / 20) pairs ↔
      ∃ p ∈ pairs, emitCorrelation threshold (1 / 20) p = some r) ∧
    (∀ p : PairStats, 3 ≤ p.nValid →
      ((emitCorrelation threshold (1 / 20) p).isSome = true ↔
        (threshold ≤ |p.pearsonCoef| ∨ threshold ≤ |p.spearmanCoef|) ∧
        (if p.pearsonP < 1 / 20 then p.pearsonP else p.spearmanP) < 1 / 20)) := by
  refine ⟨?_, ?_, ?_⟩
  · exact pairwise_mergeSort_desc (fun r : CorrRecord => |r.coefficient|) _
  · intro r
    unfold calculateCorrelations
    rw [List.Perm.mem_iff (List.mergeSort_perm _ _)]
    simp [List.mem_filterMap]
  · intro p h3
    unfold emitCorrelation
    rw [if_neg (not_lt.mpr h3)]
    by_cases hb : |p.pearsonCoef| < threshold ∧ |p.spearmanCoef| < threshold
    · rw [if_pos hb]
      simp only [Option.isSome_none, Bool.false_eq_true, false_iff, not_and]
      intro hor
      rcases hor with h | h
      · exact absurd hb.1 (not_lt.mpr h)
      · exact absurd hb.2 (not_lt.mpr h)
    · rw [if_neg hb]
      have hor : threshold ≤ |p.pearsonCoef| ∨ threshold ≤ |p.spearmanCoef| := by
        rcases not_and_or.mp hb with h | h
        · exact Or.inl (not_lt.mp h)
        · exact Or.inr (not_lt.mp h)
      by_cases hp : p.pearsonP < 1 / 20
      · rw [show decide (p.pearsonP < 1 / 20) = true from decide_eq_true hp]
        simp only [if_true, if_pos hp, Option.isSome_some, true_iff]
        exact ⟨hor, hp⟩
      · rw [show decide (p.pearsonP < 1 / 20) = false from decide_eq_false hp]
        simp only [Bool.false_eq_true, if_false, if_neg hp]
        by_cases hs : p.spearmanP < 1 / 20
        · simp only [if_pos hs, Option.isSome_some, true_iff]
          exact ⟨hor, hs⟩
        · simp only [if_neg hs, Option.isSome_none, Bool.false_eq_true, false_iff]
          exact fun h => hs h.2

/-- Witness for C3: a single pair with Pearson coefficient 4/5 and p-value
1/100 clears the 1/2 magnitude threshold and is emitted. -/
theorem correlation_emission_spec_witness :
    (emitCorrelation (1 / 2) (1 / 20)
      ⟨"a", "b", 10, 4 / 5, 1 / 100, 3 / 5, 2 / 100⟩).isSome = true :=
  ((correlation_emission_spec (1 / 2) [⟨"a", "b", 10, 4 / 5, 1 / 100, 3 / 5, 2 / 100⟩]).2.2
    ⟨"a", "b", 10, 4 / 5, 1 / 100, 3 / 5, 2 / 100⟩ (by norm_num)).mpr
    ⟨Or.inl (by rw [abs_of_nonneg (by norm_num : (0 : ℚ) ≤ 4 / 5)]; norm_num),
     by rw [if_pos (by norm_num : (1 : ℚ) / 100 < 1 / 20)]; norm_num⟩

/-- C4: the insight generator returns at most 5 insights, each carrying a
composite score of 0.7 times significance plus 0.3 times the impact weight
(1.0 high, 0.7 medium, 0.4 low), and the output is the scored extracted
insights sorted descending by score and truncated to 5. -/
theorem insight_ranking_spec (extracted : List Insight) :
    (generateInsights extracted).length ≤ 5 ∧
    List.Pairwise (fun a b => b.score ≤ a.score) (generateInsights extracted) ∧
    (∀ r ∈ generateInsights extracted,
      r.score = (7 / 10) * r.significance + (3 / 10) * impactWeight r.impact ∧
      ∃ i ∈ extracted, r = scoreInsight i) ∧
    impactWeight "high" = 1 ∧ impactWeight "medium" = 7 / 10 ∧
    impactWeight "low" = 2 / 5 ∧
    ∃ s : List ScoredInsight, s.Perm (extracted.map scoreInsight) ∧
      List.Pairwise (fun a b => b.score ≤ a.score) s ∧
      generateInsights extracted = s.take 5 := by
  refine ⟨List.length_take_le _ _, ?_, ?_, rfl, rfl, rfl, ?_⟩
  · exact (pairwise_mergeSort_desc (fun r : ScoredInsight => r.score) _).sublist
      (List.take_sublist _ _)
  · intro r hr
    have hmem : r ∈ extracted.map scoreInsight := by
      have h1 : r ∈ rankInsights extracted :=
        List.mem_of_mem_take hr
      exact (List.Perm.mem_iff (List.mergeSort_perm _ _)).mp h1
    rcases List.mem_map.mp hmem with ⟨i, hi, hri⟩
    subst hri
    exact ⟨rfl, i, hi, rfl⟩
  · exact ⟨rankInsights extracted, List.mergeSort_perm _ _,
      pairwise_mergeSort_desc (fun r : ScoredInsight => r.score) _, rfl⟩

/-- Appending one chart raises exactly its own type count by one. -/
theorem countType_append (sel : List Chart) (c : Chart) (t : String) :
    countType (sel ++ [c]) t = countType sel t + (if c.ctype = t then 1 else 0) := by
  simp only [countType, List.filter_append, List.length_append]
  congr 1
  by_cases h : c.ctype = t
  · simp [h]
  · simp [h]

/-- Type counts agree across permutations. -/
theorem countType_perm {l₁ l₂ : List Chart} (h : l₁.Perm l₂) (t : String) :
    countType l₁ t = countType l₂ t :=
  (h.filter _).length_eq

/-- Type counts only shrink along sublists. -/
theorem countType_sublist {l₁ l₂ : List Chart} (h : l₁.Sublist l₂) (t : String) :
    countType l₁ t ≤ countType l₂ t :=
  (h.filter _).length_le

/-- The first pass keeps every type count at 2 or below. -/
theorem firstPassSelect_count_le (cs : List Chart) :
    ∀ (prio : List String) (sel : List Chart),
      (∀ t, countType sel t ≤ 2) →
      ∀ t, countType (firstPassSelect cs prio sel) t ≤ 2 := by
  induction cs with
  | nil => intro prio sel h t; exact h t
  | cons c cs ih =>
    intro prio sel h t
    unfold firstPassSelect
    by_cases hc : c.ctype ∈ prio ∧ countType sel c.ctype = 0
    · rw [if_pos hc]
      refine ih _ _ ?_ t
      intro u
      rw [countType_append]
      by_cases hu : c.ctype = u
      · subst hu
        rw [hc.2]
        simp
      · simp [hu, h u]
    · rw [if_neg hc]
      exact ih _ _ h t

/-- The second pass keeps every type count at 2 or below. -/
theorem secondPassSelect_count_le (maxCharts : Nat) (cs : List Chart) :
    ∀ sel : List Chart,
      (∀ t, countType sel t ≤ 2) →
      ∀ t, countType (secondPassSelect maxCharts cs sel) t ≤ 2 := by
  induction cs with
  | nil => intro sel h t; exact h t
  | cons c cs ih =>
    intro sel h t
    unfold secondPassSelect
    by_cases h1 : c ∈ sel
    · rw [if_pos h1]; exact ih _ h t
    · rw [if_neg h1]
      by_cases h2 : 2 ≤ countType sel c.ctype
      · rw [if_pos h2]; exact ih _ h t
      · rw [if_neg h2]
        have happ : ∀ u, countType (sel ++ [c]) u ≤ 2 := by
          intro u
          rw [countType_append]
          by_cases hu : c.ctype = u
          · subst hu
            have hle : countType sel c.ctype ≤ 1 := Nat.lt_succ_iff.mp (not_le.mp h2)
            simp only [if_pos rfl]
            simp only [if_true]
            omega
          · simp [hu, h u]
        by_cases h3 : maxCharts ≤ (sel ++ [c]).length
        · rw [if_pos h3]; exact happ t
        · rw [if_neg h3]; exact ih _ happ t

/-- C5: the visualization selector returns at most the configured maximum
number of charts, at most 2 charts of any single chart type, and the
result is sorted descending by composite score. -/
theorem select_diverse_charts_spec (maxCharts : Nat) (scoredCharts : List Chart) :
    (selectDiverseCharts maxCharts scoredCharts).length ≤ maxCharts ∧
    (∀ t, countType (selectDiverseCharts maxCharts scoredCharts) t ≤ 2) ∧
    List.Pairwise (fun a b => b.score ≤ a.score)
      (selectDiverseCharts maxCharts scoredCharts) := by
  refine ⟨List.length_take_le _ _, ?_, ?_⟩
  · intro t
    unfold selectDiverseCharts
    have hsel2 : ∀ u, countType (secondPassSelect maxCharts scoredCharts
        (firstPassSelect scoredCharts ["heatmap", "combination", "boxplot"] [])) u ≤ 2 := by
      intro u
      refine secondPassSelect_count_le _ _ _ ?_ u
      intro v
      refine firstPassSelect_count_le _ _ _ ?_ v
      intro w
      simp [countType]
    calc countType _ t ≤ countType ((secondPassSelect maxCharts scoredCharts
            (firstPassSelect scoredCharts ["heatmap", "combination", "boxplot"] [])).mergeSort
            fun a b => decide (b.score ≤ a.score)) t :=
          countType_sublist (List.take_sublist _ _) t
      _ = countType (secondPassSelect maxCharts scoredCharts
            (firstPassSelect scoredCharts ["heatmap", "combination", "boxplot"] [])) t :=
          countType_perm (List.mergeSort_perm _ _) t
      _ ≤ 2 := hsel2 t
  · exact (pairwise_mergeSort_desc (fun c : Chart => c.score) _).sublist
      (List.take_sublist _ _)

/-- Witness for C4: a one-insight input produces at most 5 insights. -/
theorem insight_ranking_spec_witness :
    (generateInsights [⟨1, "high"⟩]).length ≤ 5 :=
  (insight_ranking_spec [⟨1, "high"⟩]).1

/-- Squared-comparison bridge: for a positive square root `s` of the
sample variance, the embedded z-score mask agrees with the source's
`|value - mean| / std > threshold` test. -/
theorem zscore_mask_eq_div_form (data : List ℚ) (s : ℚ)
    (hsq : s ^ 2 = sampleVar data) (hs : 0 < s) (d : ℚ) :
    ((3 : ℚ) ^ 2 * sampleVar data < d ^ 2 ↔ 3 < |d| / s) := by
  rw [lt_div_iff₀ hs]
  constructor
  · intro h
    nlinarith [sq_abs d, abs_nonneg d, hsq, hs]
  · intro h
    nlinarith [sq_abs d, abs_nonneg d, hsq, hs]

/-- C8: on a column with at least 4 valid values, a zero standard
deviation yields the all-empty z-score report (no division happens), and a
positive standard deviation `s` flags exactly the entries with
`|value - mean| / s > 3`. -/
theorem zscore_outlier_spec (data : List ℚ) (_h4 : 4 ≤ data.length) :
    (sampleVar data = 0 → detectOutliersZscore data 3 = ⟨0, 0, [], [], []⟩) ∧
    (∀ s : ℚ, s ^ 2 = sampleVar data → 0 < s →
      zscoreFlagged data 3 =
        data.enum.filter (fun p => decide (3 < |p.2 - listMean data| / s)) ∧
      (detectOutliersZscore data 3).count = (zscoreFlagged data 3).length ∧
      (detectOutliersZscore data 3).indices =
        ((zscoreFlagged data 3).map Prod.fst).take 20) := by
  constructor
  · intro h0
    unfold detectOutliersZscore
    rw [if_pos h0]
  · intro s hsq hs
    have hvar : sampleVar data ≠ 0 := by
      intro h
      rw [h] at hsq
      exact absurd ((pow_eq_zero_iff (by norm_num : (2 : ℕ) ≠ 0)).mp hsq) hs.ne'
    refine ⟨?_, ?_, ?_⟩
    · unfold zscoreFlagged
      refine List.filter_congr ?_
      intro p _
      exact decide_eq_decide.mpr (zscore_mask_eq_div_form data s hsq hs (p.2 - listMean data))
    · unfold detectOutliersZscore
      rw [if_neg hvar]
    · unfold detectOutliersZscore
      rw [if_neg hvar]

/-- Witness for C8: the constant column 5,5,5,5 has zero variance and an
empty z-score report. -/
theorem zscore_outlier_spec_witness :
    detectOutliersZscore [5, 5, 5, 5] 3 = ⟨0, 0, [], [], []⟩ :=
  (zscore_outlier_spec [5, 5, 5, 5] (by norm_num)).1
    (by norm_num [sampleVar, listMean])

/-- Every element of the union of pairwise intersections lies in at least
two of the three sets, so twice its cardinality is bounded by the sum of
the three cardinalities. -/
theorem union_pairwise_inter_card (A B C : Finset ℕ) :
    2 * ((A ∩ B) ∪ (A ∩ C) ∪ (B ∩ C)).card ≤ A.card + B.card + C.card := by
  set S := (A ∩ B) ∪ (A ∩ C) ∪ (B ∩ C) with hS
  have hmem : ∀ x ∈ S, 2 ≤
      ((if x ∈ A then 1 else 0) + (if x ∈ B then 1 else 0) +
        (if x ∈ C then 1 else 0) : ℕ) := by
    intro x hx
    rw [hS] at hx
    simp only [Finset.mem_union, Finset.mem_inter] at hx
    by_cases hA : x ∈ A <;> by_cases hB : x ∈ B <;> by_cases hC : x ∈ C <;>
      simp [hA, hB, hC] at hx ⊢
  have h1 : 2 * S.card = ∑ _x ∈ S, 2 := by
    rw [Finset.sum_const, smul_eq_mul, mul_comm]
  have h2 : (∑ _x ∈ S, 2) ≤
      ∑ x ∈ S, ((if x ∈ A then 1 else 0) + (if x ∈ B then 1 else 0) +
        (if x ∈ C then 1 else 0) : ℕ) :=
    Finset.sum_le_sum hmem
  have hsplit : ∀ D : Finset ℕ, (∑ x ∈ S, (if x ∈ D then 1 else 0) : ℕ) ≤ D.card := by
    intro D
    rw [Finset.sum_ite_mem, Finset.sum_const, smul_eq_mul, mul_one]
    exact Finset.card_le_card Finset.inter_subset_right
  have h3 : (∑ x ∈ S, ((if x ∈ A then 1 else 0) + (if x ∈ B then 1 else 0) +
      (if x ∈ C then 1 else 0) : ℕ)) ≤ A.card + B.card + C.card := by
    rw [Finset.sum_add_distrib, Finset.sum_add_distrib]
    exact add_le_add (add_le_add (hsplit A) (hsplit B)) (hsplit C)
  omega

/-- C10: the consensus is computed from the per-method index lists after
their truncation to 20 entries; its count never exceeds 30, its percentage
denominator is at least 1, and a value flagged by exactly two methods but
missing from the 20-entry prefix of one of them is absent from the
consensus. -/
theorem consensus_truncation_spec (data : List ℚ) (q1 q3 : ℚ)
    (iqrFull zFull isoFull : List Nat) :
    (detectOutliersIqr data q1 q3).indices =
      ((iqrFlagged data q1 q3).map Prod.fst).take 20 ∧
    (sampleVar data ≠ 0 →
      (detectOutliersZscore data 3).indices =
        ((zscoreFlagged data 3).map Prod.fst).take 20) ∧
    (getConsensusOutliers (iqrFull.take 20) (zFull.take 20)
      (some (isoFull.take 20))).count ≤ 30 ∧
    (getConsensusOutliers (iqrFull.take 20) (zFull.take 20) none).count ≤ 30 ∧
    1 ≤ max ((iqrFull.take 20).length + (zFull.take 20).length) 1 ∧
    (∀ i, i ∈ iqrFull → i ∈ zFull → i ∉ isoFull →
      ¬(i ∈ iqrFull.take 20 ∧ i ∈ zFull.take 20) →
      i ∉ consensusSet (iqrFull.take 20) (zFull.take 20) (some (isoFull.take 20))) ∧
    (∀ i, i ∈ iqrFull → i ∉ zFull → i ∈ isoFull →
      ¬(i ∈ iqrFull.take 20 ∧ i ∈ isoFull.take 20) →
      i ∉ consensusSet (iqrFull.take 20) (zFull.take 20) (some (isoFull.take 20))) ∧
    (∀ i, i ∉ iqrFull → i ∈ zFull → i ∈ isoFull →
      ¬(i ∈ zFull.take 20 ∧ i ∈ isoFull.take 20) →
      i ∉ consensusSet (iqrFull.take 20) (zFull.take 20) (some (isoFull.take 20))) := by
  have hcard : ∀ l : List Nat, (l.take 20).toFinset.card ≤ 20 := fun l =>
    le_trans (List.toFinset_card_le _) (List.length_take_le _ _)
  refine ⟨rfl, ?_, ?_, ?_, le_max_right _ _, ?_, ?_, ?_⟩
  · intro hvar
    unfold detectOutliersZscore
    rw [if_neg hvar]
  · have h := union_pairwise_inter_card (iqrFull.take 20).toFinset
      (zFull.take 20).toFinset (isoFull.take 20).toFinset
    have hA := hcard iqrFull
    have hB := hcard zFull
    have hC := hcard isoFull
    show (consensusSet _ _ _).card ≤ 30
    simp only [consensusSet]
    omega
  · show (consensusSet _ _ _).card ≤ 30
    simp only [consensusSet]
    have h1 : ((iqrFull.take 20).toFinset ∩ (zFull.take 20).toFinset).card ≤
        (iqrFull.take 20).toFinset.card :=
      Finset.card_le_card Finset.inter_subset_left
    have h2 := hcard iqrFull
    omega
  · intro i h1 h2 h3 h4
    have hC : i ∉ isoFull.take 20 := fun hm => h3 (List.take_subset _ _ hm)
    simp only [consensusSet, Finset.mem_union, Finset.mem_inter, List.mem_toFinset]
    tauto
  · intro i h1 h2 h3 h4
    have hB : i ∉ zFull.take 20 := fun hm => h2 (List.take_subset _ _ hm)
    simp only [consensusSet, Finset.mem_union, Finset.mem_inter, List.mem_toFinset]
    tauto
  · intro i h1 h2 h3 h4
    have hA : i ∉ iqrFull.take 20 := fun hm => h1 (List.take_subset _ _ hm)
    simp only [consensusSet, Finset.mem_union, Finset.mem_inter, List.mem_toFinset]
    tauto

/-- Witness for C10: a variance-1 column exposes exactly the first 20
flagged z-score indices to the consensus step. -/
theorem consensus_truncation_spec_witness :
    (detectOutliersZscore [2, 0, 0, 0] 3).indices =
      ((zscoreFlagged [2, 0, 0, 0] 3).map Prod.fst).take 20 :=
  (consensus_truncation_spec [2, 0, 0, 0] 0 0 [] [] []).2.1
    (by norm_num [sampleVar, listMean])

/-- Witness for C6: with the default minimums (2 columns, 10 rows) a
1-column table is rejected for its column count and a 3x50 table passes. -/
theorem validate_data_spec_witness :
    (∃ e : ValidationErr, validateData 2 10 1 50 = .error e ∧
        e.observed < e.required ∧
        ((e.dim = .columns ∧ e.observed = 1 ∧ e.required = 2) ∨
         (e.dim = .rows ∧ e.observed = 50 ∧ e.required = 10))) ∧
    validateData 2 10 3 50 = .ok () :=
  ⟨(validate_data_spec 2 10 1 50).1 (Or.inl (by decide)),
   (validate_data_spec 2 10 3 50).2 (by decide) (by decide)⟩

mutual

/-- `tolist()` of a numeric ndarray contains no numpy wrapper. -/
theorem noNumpy_npScalarToNative (d : NpArrayData) :
    noNumpy (npScalarToNative d) = true := by
  cases d with
  | intScalar n => rfl
  | floatScalar x => rfl
  | boolScalar b => rfl
  | arr elems =>
    show noNumpyMany (npManyToNative elems) = true
    exact noNumpyMany_npManyToNative elems

/-- List version of `noNumpy_npScalarToNative`. -/
theorem noNumpyMany_npManyToNative (ds : List NpArrayData) :
    noNumpyMany (npManyToNative ds) = true := by
  cases ds with
  | nil => rfl
  | cons d ds =>
    show (noNumpy (npScalarToNative d) && noNumpyMany (npManyToNative ds)) = true
    rw [noNumpy_npScalarToNative d, noNumpyMany_npManyToNative ds]
    rfl

end

mutual

/-- `tolist()` of a numeric ndarray preserves finiteness of its floats. -/
theorem allFinite_npScalarToNative (d : NpArrayData)
    (h : npDataFinite d = true) : allFinite (npScalarToNative d) = true := by
  cases d with
  | intScalar n => rfl
  | floatScalar x => exact h
  | boolScalar b => rfl
  | arr elems =>
    show allFiniteMany (npManyToNative elems) = true
    exact allFiniteMany_npManyToNative elems h

/-- List version of `allFinite_npScalarToNative`. -/
theorem allFiniteMany_npManyToNative (ds : List NpArrayData)
    (h : npManyFinite ds = true) : allFiniteMany (npManyToNative ds) = true := by
  cases ds with
  | nil => rfl
  | cons d ds =>
    have hd : npDataFinite d = true := (Bool.and_eq_true_iff.mp h).1
    have hds : npManyFinite ds = true := (Bool.and_eq_true_iff.mp h).2
    show (allFinite (npScalarToNative d) && allFiniteMany (npManyToNative ds)) = true
    rw [allFinite_npScalarToNative d hd, allFiniteMany_npManyToNative ds hds]
    rfl

end

mutual

/-- The converted value contains no numpy wrapper type. -/
theorem noNumpy_convert (v : PyVal) : noNumpy (convertNumpyTypes v) = true := by
  cases v with
  | npInt n => rfl
  | npFloat x => rfl
  | npBool b => rfl
  | npArray elems =>
    show noNumpyMany (npManyToNative elems) = true
    exact noNumpyMany_npManyToNative elems
  | pyDict entries =>
    show noNumpyEntries (convertEntries entries) = true
    exact noNumpyEntries_convertEntries entries
  | pyList elems =>
    show noNumpyMany (convertMany elems) = true
    exact noNumpyMany_convertMany elems
  | pyTuple elems =>
    show noNumpyMany (convertMany elems) = true
    exact noNumpyMany_convertMany elems
  | pyInt n => rfl
  | pyFloat x => rfl
  | pyBool b => rfl
  | pyStr s => rfl
  | pyNone => rfl

/-- List version of `noNumpy_convert`. -/
theorem noNumpyMany_convertMany (vs : List PyVal) :
    noNumpyMany (convertMany vs) = true := by
  cases vs with
  | nil => rfl
  | cons v vs =>
    show (noNumpy (convertNumpyTypes v) && noNumpyMany (convertMany vs)) = true
    rw [noNumpy_convert v, noNumpyMany_convertMany vs]
    rfl

/-- Dict version of `noNumpy_convert`. -/
theorem noNumpyEntries_convertEntries (es : List (String × PyVal)) :
    noNumpyEntries (convertEntries es) = true := by
  cases es with
  | nil => rfl
  | cons e es =>
    show (noNumpy (convertNumpyTypes e.2) && noNumpyEntries (convertEntries es)) = true
    rw [noNumpy_convert e.2, noNumpyEntries_convertEntries es]
    rfl

end

mutual

/-- Conversion preserves finiteness of all numeric leaves. -/
theorem allFinite_convert (v : PyVal) (h : allFinite v = true) :
    allFinite (convertNumpyTypes v) = true := by
  cases v with
  | npInt n => rfl
  | npFloat x => exact h
  | npBool b => rfl
  | npArray elems =>
    show allFiniteMany (npManyToNative elems) = true
    exact allFiniteMany_npManyToNative elems h
  | pyDict entries =>
    show allFiniteEntries (convertEntries entries) = true
    exact allFiniteEntries_convertEntries entries h
  | pyList elems =>
    show allFiniteMany (convertMany elems) = true
    exact allFiniteMany_convertMany elems h
  | pyTuple elems =>
    show allFiniteMany (convertMany elems) = true
    exact allFiniteMany_convertMany elems h
  | pyInt n => rfl
  | pyFloat x => exact h
  | pyBool b => rfl
  | pyStr s => rfl
  | pyNone => rfl

/-- List version of `allFinite_convert`. -/
theorem allFiniteMany_convertMany (vs : List PyVal) (h : allFiniteMany vs = true) :
    allFiniteMany (convertMany vs) = true := by
  cases vs with
  | nil => rfl
  | cons v vs =>
    have hv : allFinite v = true := (Bool.and_eq_true_iff.mp h).1
    have hvs : allFiniteMany vs = true := (Bool.and_eq_true_iff.mp h).2
    show (allFinite (convertNumpyTypes v) && allFiniteMany (convertMany vs)) = true
    rw [allFinite_convert v hv, allFiniteMany_convertMany vs hvs]
    rfl

/-- Dict version of `allFinite_convert`. -/
theorem allFiniteEntries_convertEntries (es : List (String × PyVal))
    (h : allFiniteEntries es = true) : allFiniteEntries (convertEntries es) = true := by
  cases es with
  | nil => rfl
  | cons e es =>
    have hv : allFinite e.2 = true := by
      cases e with
      | mk k v => exact (Bool.and_eq_true_iff.mp h).1
    have hes : allFiniteEntries es = true := by
      cases e with
      | mk k v => exact (Bool.and_eq_true_iff.mp h).2
    show (allFinite (convertNumpyTypes e.2) && allFiniteEntries (convertEntries es)) = true
    rw [allFinite_convert e.2 hv, allFiniteEntries_convertEntries es hes]
    rfl

end

/-- Counterexample for C7 as stated: a numpy NaN float survives conversion
as a native but non-finite numeric leaf, so the converter alone does not
make every numeric leaf finite. -/
theorem convert_numpy_finiteness_counterexample :
    convertNumpyTypes (.npFloat .nan) = .pyFloat .nan ∧
    allFinite (convertNumpyTypes (.npFloat .nan)) = false :=
  ⟨rfl, rfl⟩

/-- C7 (amended): after conversion no library numeric wrapper type remains
anywhere in the bundle (ndarrays become plain lists of native scalars),
and numeric leaves are preserved, so the output has only finite numeric
leaves whenever the input did. -/
theorem convert_numpy_types_spec (v : PyVal) :
    noNumpy (convertNumpyTypes v) = true ∧
    (allFinite v = true → allFinite (convertNumpyTypes v) = true) :=
  ⟨noNumpy_convert v, fun h => allFinite_convert v h⟩

/-- Witness for C7: a mixed bundle of numpy scalars and a numeric ndarray
converts to a wrapper-free, all-finite value. -/
theorem convert_numpy_types_spec_witness :
    noNumpy (convertNumpyTypes (.pyDict [("a", .npInt 3),
      ("b", .npArray [.intScalar 1, .floatScalar (.finite 2)])])) = true ∧
    allFinite (convertNumpyTypes (.pyDict [("a", .npInt 3),
      ("b", .npArray [.intScalar 1, .floatScalar (.finite 2)])])) = true :=
  ⟨(convert_numpy_types_spec _).1, (convert_numpy_types_spec _).2 rfl⟩

end DataStory
